import Mathlib

/-!
Shallow embedding of the image-preprocessing pipeline of `helper.py`
(repository SemProject): grayscale conversion, binary thresholding,
bilinear and bicubic resampling, and the response handling of
`get_text_from_image`.

Conventions of the embedding:
* a PIL image is a width, a height and a grid of RGB pixels, indexed as
  `data[x][y]` with `x < width`, `y < height` (the source iterates
  `for row in range(image.width)` and accesses `image_data[row, col]`);
* Python floats are modelled by exact rationals, Python `int()` by
  truncation toward zero (`truncQ`);
* a stage that mutates its image in place is modelled as a function
  returning a pair: first the value the Python function returns, second
  the contents of the caller-supplied image object after the call;
* a Python function that may return `None` or raise is modelled with
  `PyOutcome` (returned value, or named uncaught exception).
-/

namespace SemProject

/-- An RGB pixel: red, green and blue channel values. -/
abbrev Pixel : Type := ℕ × ℕ × ℕ

/-- A decoded raster image: dimensions plus the pixel grid, indexed
`data[x][y]` with `x` along the width axis. -/
structure Image where
  width : ℕ
  height : ℕ
  data : List (List Pixel)
deriving DecidableEq

/-- Pixel access `image_data[x, y]`. PIL raises on an out-of-range index;
all in-range accesses of the source are modelled exactly and the
out-of-range default `(0, 0, 0)` is never reached under the spec
precondition of positive dimensions. -/
def getPixel (img : Image) (x y : ℕ) : Pixel :=
  (img.data.getD x []).getD y (0, 0, 0)

/-- Python `int()` on a float: truncation toward zero. -/
def truncQ (q : ℚ) : ℤ := if 0 ≤ q then ⌊q⌋ else ⌈q⌉

/-- All channel values of every pixel of the image are at most `m`. -/
def Image.bounded (img : Image) (m : ℕ) : Prop :=
  ∀ c ∈ img.data, ∀ p ∈ c, p.1 ≤ m ∧ p.2.1 ≤ m ∧ p.2.2 ≤ m

/-- Channel bound on a single pixel. -/
def pixelLE (p : Pixel) (m : ℕ) : Prop := p.1 ≤ m ∧ p.2.1 ≤ m ∧ p.2.2 ≤ m

/-- helper.py lines 31..37: `gray = int(0.2989*red + 0.5870*green + 0.1140*blue)`.
The double-precision products and sum are modelled by exact rationals.
This idealization agrees with the program on every concrete pixel a
theorem below evaluates (the fixtures 76, 149, 29 and the mutation
fixture) and on the [0,255] channel bound, but double rounding makes the
program truncate one below the exact floor on a few inputs (for example
(0, 72, 24), whose exact sum is 45.000 while the double sum is just under
45), so no theorem asserts the exact floor formula for every pixel. -/
def grayValue (p : Pixel) : ℕ :=
  (truncQ ((0.2989 : ℚ) * p.1 + (0.5870 : ℚ) * p.2.1 + (0.1140 : ℚ) * p.2.2)).toNat

/-- helper.py lines 25..41, the `fast = False` branch of `to_grayscale`:
the loop writes `(gray, gray, gray)` into `image_data[row, col]` for every
`row < width`, `col < height`, mutating the input image in place, and
line 41 returns that same image.  First component: the returned image;
second component: the caller's image after the call. -/
def to_grayscale_slow (img : Image) : Image × Image :=
  let mutated : Image :=
    { img with
      data := (List.range img.width).map fun row =>
        (List.range img.height).map fun col =>
          let g := grayValue (getPixel img row col)
          (g, g, g) }
  (mutated, mutated)

/-- helper.py lines 68..71: keep channel 0, compare with the threshold,
write black below it and white otherwise. -/
def binary_threshold_pixel (p : Pixel) (threshold : ℤ) : Pixel :=
  if (p.1 : ℤ) < threshold then (0, 0, 0) else (255, 255, 255)

/-- helper.py lines 59..73, the `fast = False` branch of `binary_threshold`:
in-place mutation of every pixel, then line 73 returns the same image.
Pair as in `to_grayscale_slow`. -/
def binary_threshold_slow (img : Image) (threshold : ℤ) : Image × Image :=
  let mutated : Image :=
    { img with
      data := (List.range img.width).map fun row =>
        (List.range img.height).map fun col =>
          binary_threshold_pixel (getPixel img row col) threshold }
  (mutated, mutated)

/-- One channel of helper.py lines 117..124: the bilinear weighted sum of
the four corner channels with weights built from the fractional offsets,
truncated by `int()`. -/
def bilinChan (dx dy : ℚ) (a b c d : ℕ) : ℕ :=
  (truncQ ((1 - dx) * (1 - dy) * a + dx * (1 - dy) * b +
      (1 - dx) * dy * c + dx * dy * d)).toNat

/-- helper.py lines 106..124: the interpolated pixel written to
`resized_data[row, col]`.  `x1 = int(x)` is nonnegative for
`scale_factor > 0`, so the `Int.toNat` coercion is exact there. -/
def bilinearPixel (img : Image) (scale_factor : ℚ) (row col : ℕ) : Pixel :=
  let x : ℚ := row / scale_factor
  let y : ℚ := col / scale_factor
  let x1 : ℕ := (truncQ x).toNat
  let y1 : ℕ := (truncQ y).toNat
  let x2 : ℕ := min (x1 + 1) (img.width - 1)
  let y2 : ℕ := min (y1 + 1) (img.height - 1)
  let top_left := getPixel img x1 y1
  let top_right := getPixel img x2 y1
  let bottom_left := getPixel img x1 y2
  let bottom_right := getPixel img x2 y2
  let dx : ℚ := x - x1
  let dy : ℚ := y - y1
  (bilinChan dx dy top_left.1 top_right.1 bottom_left.1 bottom_right.1,
   bilinChan dx dy top_left.2.1 top_right.2.1 bottom_left.2.1 bottom_right.2.1,
   bilinChan dx dy top_left.2.2 top_right.2.2 bottom_left.2.2 bottom_right.2.2)

/-- helper.py lines 93..126: the `resized_img` built by the slow branch of
`bilinear_filter` (dimensions `int(w*factor)`, `int(h*factor)`, every
position filled by the interpolation loop). -/
def bilinear_resized_img (img : Image) (scale_factor : ℚ) : Image :=
  let new_width : ℕ := (truncQ ((img.width : ℚ) * scale_factor)).toNat
  let new_height : ℕ := (truncQ ((img.height : ℚ) * scale_factor)).toNat
  { width := new_width
    height := new_height
    data := (List.range new_width).map fun row =>
      (List.range new_height).map fun col =>
        bilinearPixel img scale_factor row col }

/-- helper.py lines 91..128, the `fast = False` branch of `bilinear_filter`:
the loop only writes into `resized_img` (the input is never written), and
line 128 executes `return image`, so the computed `resized_img` is
discarded and the unmodified input is returned.  Pair as above. -/
def bilinear_filter_slow (img : Image) (scale_factor : ℚ) : Image × Image :=
  let _resized_img := bilinear_resized_img img scale_factor
  (img, img)

/-- helper.py lines 159..165, the local `cubic` kernel with
`cubic_factor = -0.5`. -/
def cubic (pixel : ℚ) : ℚ :=
  let cubic_factor : ℚ := -0.5
  if |pixel| ≤ 1 then
    (cubic_factor + 2) * |pixel| ^ 3 - (cubic_factor + 3) * |pixel| ^ 2 + 1
  else if 1 < |pixel| ∧ |pixel| < 2 then
    cubic_factor * |pixel| ^ 3 - 5 * cubic_factor * |pixel| ^ 2 +
      8 * cubic_factor * |pixel| - 4 * cubic_factor
  else 0

/-- helper.py lines 174..176: the neighborhood coordinate
`int(scaled) - 1 + index` (used for `x_vals` with `row` and for `y_vals`
with `col`). -/
def x_val (scale_factor : ℚ) (row x_index : ℕ) : ℤ :=
  (truncQ ((row : ℚ) / scale_factor) - 1) + x_index

/-- helper.py lines 184..185: a neighborhood sample is the source pixel
when the coordinate lies inside `[0,width) × [0,height)` and the zero
(black) pixel otherwise. -/
def bicubicSample (img : Image) (x y : ℤ) : Pixel :=
  if 0 ≤ x ∧ x < (img.width : ℤ) ∧ 0 ≤ y ∧ y < (img.height : ℤ) then
    getPixel img x.toNat y.toNat
  else (0, 0, 0)

/-- helper.py line 191: the term added to `interpolated_pixel` for one
`(x_index, y_index)`: the sampled pixel times the two separable cubic
kernel weights, channelwise. -/
def bicubicContribution (img : Image) (scale_factor : ℚ)
    (row col x_index y_index : ℕ) : ℚ × ℚ × ℚ :=
  let scaled_row : ℚ := (row : ℚ) / scale_factor
  let scaled_col : ℚ := (col : ℚ) / scale_factor
  let scaled_row_iter : ℤ := truncQ scaled_row - 1
  let scaled_col_iter : ℤ := truncQ scaled_col - 1
  let s := bicubicSample img (x_val scale_factor row x_index)
      (x_val scale_factor col y_index)
  let w : ℚ := cubic (scaled_row - scaled_row_iter - x_index) *
      cubic (scaled_col - scaled_col_iter - y_index)
  ((s.1 : ℚ) * w, (s.2.1 : ℚ) * w, (s.2.2 : ℚ) * w)

/-- helper.py lines 187..191: `interpolated_pixel`, the accumulated sum of
the 16 contributions. -/
def interpolated_pixel_sum (img : Image) (scale_factor : ℚ)
    (row col : ℕ) : ℚ × ℚ × ℚ :=
  ∑ x_index ∈ Finset.range 4, ∑ y_index ∈ Finset.range 4,
    bicubicContribution img scale_factor row col x_index y_index

/-- helper.py lines 193..195: `np.clip(v, 0, 255)` then `int()` per channel. -/
def clipChan (v : ℚ) : ℕ := (truncQ (max 0 (min v 255))).toNat

/-- The pixel written to `resized_data[row, col]` by the bicubic loop. -/
def bicubicPixel (img : Image) (scale_factor : ℚ) (row col : ℕ) : Pixel :=
  let s := interpolated_pixel_sum img scale_factor row col
  (clipChan s.1, clipChan s.2.1, clipChan s.2.2)

/-- helper.py lines 149..195: the `resized_img` built by the slow branch of
`bicubic_filter`. -/
def bicubic_resized_img (img : Image) (scale_factor : ℚ) : Image :=
  let new_width : ℕ := (truncQ ((img.width : ℚ) * scale_factor)).toNat
  let new_height : ℕ := (truncQ ((img.height : ℚ) * scale_factor)).toNat
  { width := new_width
    height := new_height
    data := (List.range new_width).map fun row =>
      (List.range new_height).map fun col =>
        bicubicPixel img scale_factor row col }

/-- helper.py lines 147..197, the `fast = False` branch of `bicubic_filter`:
line 197 returns the freshly built `resized_img`; the input image is never
written.  Pair as above. -/
def bicubic_filter_slow (img : Image) (scale_factor : ℚ) : Image × Image :=
  (bicubic_resized_img img scale_factor, img)

/-- A Python value returned by a stage: an image, or `None`. -/
inductive PyVal where
  | img : Image → PyVal
  | pyNone : PyVal
deriving DecidableEq

/-- A Python call outcome: a returned value, or an uncaught exception
identified by its class name. -/
inductive PyOutcome where
  | ret : PyVal → PyOutcome
  | exn : String → PyOutcome
deriving DecidableEq

/-- helper.py lines 75..128, `bilinear_filter` with its mode flag.
Fast branch (line 90): `image = image.thumbnail((300, 300), BILINEAR)`;
PIL `thumbnail` resizes in place and returns `None`, so `image` is rebound
to `None` and line 128 returns `None`.  Slow branch: the value returned at
line 128, namely the unmodified input (see `bilinear_filter_slow`). -/
def bilinear_filter (img : Image) (scale_factor : ℚ) (fast : Bool) : PyOutcome :=
  if fast then PyOutcome.ret PyVal.pyNone
  else PyOutcome.ret (PyVal.img (bilinear_filter_slow img scale_factor).1)

/-- helper.py lines 131..197, `bicubic_filter` with its mode flag.
Fast branch (line 146) never assigns the local `resized_img`, so the
`return resized_img` at line 197 raises `UnboundLocalError` (a
`NameError`).  Slow branch: returns the freshly built `resized_img`. -/
def bicubic_filter (img : Image) (scale_factor : ℚ) (fast : Bool) : PyOutcome :=
  if fast then PyOutcome.exn "UnboundLocalError"
  else PyOutcome.ret (PyVal.img (bicubic_filter_slow img scale_factor).1)

/-- The LLM response object as used by helper.py lines 244..247: accessing
`.text` either yields a string or raises (`text = none`), and
`.parts[0]` succeeds exactly when the parts list is nonempty. -/
structure LLMResponse where
  text : Option String
  parts : List String
deriving DecidableEq

/-- The literal of helper.py lines 247 and 283. -/
def fallback_message : String := "Sorry I couldn Understand the Prescription"

/-- helper.py lines 244..247 (identically 280..283), the value
`get_text_from_image` returns once the LLM response is in hand:
`try: return response.text` / on failure `try: response.parts[0]` — whose
result is discarded, after which the function falls off its end and
returns `None` — / on failure return the fallback literal. -/
def get_text_from_image_response (response : LLMResponse) : Option String :=
  match response.text with
  | some t => some t
  | none =>
    match response.parts.head? with
    | some _ => none
    | none => some fallback_message

/-- Concrete 1×1 all-white fixture image. -/
def imgWhite1 : Image := ⟨1, 1, [[(255, 255, 255)]]⟩

/-- Concrete 1×1 pure-red fixture image. -/
def imgRed : Image := ⟨1, 1, [[(255, 0, 0)]]⟩

/-- Concrete 1×1 mid-gray fixture image. -/
def imgGray128 : Image := ⟨1, 1, [[(128, 128, 128)]]⟩

/-- The fallback string the claim attributes to the code (built without a
literal apostrophe character). -/
def claimed_fallback : String :=
  "Sorry, I couldn" ++ (Char.ofNat 39).toString ++ "t understand the Prescription"

/-- Truncation toward zero agrees with the floor on nonnegative rationals. -/
lemma truncQ_of_nonneg {q : ℚ} (h : 0 ≤ q) : truncQ q = ⌊q⌋ := if_pos h

/-- `int()` of a rational bounded by a natural number stays bounded by it. -/
lemma truncQ_toNat_le {q : ℚ} {m : ℕ} (h : q ≤ m) : (truncQ q).toNat ≤ m := by
  unfold truncQ
  split
  · next h0 =>
    refine Int.toNat_le.mpr ?_
    calc ⌊q⌋ ≤ ⌊(m : ℚ)⌋ := Int.floor_le_floor h
    _ = m := Int.floor_natCast m
  · next h0 =>
    have hc : ⌈q⌉ ≤ 0 := Int.ceil_le.mpr (by exact_mod_cast (not_le.mp h0).le)
    have : (⌈q⌉).toNat = 0 := Int.toNat_eq_zero.mpr hc
    omega

/-- A `getD` lookup yields the default or a member of the list. -/
lemma getD_mem_or {α : Type} (l : List α) (i : ℕ) (d : α) :
    l.getD i d = d ∨ l.getD i d ∈ l := by
  rw [List.getD_eq_getElem?_getD]
  cases h : l[i]? with
  | none => exact Or.inl rfl
  | some a => exact Or.inr (by rw [Option.getD_some]; exact List.getElem?_mem h)

/-- Pixel lookup in an image built as a `width × height` comprehension. -/
lemma getPixel_build (w h wd ht : ℕ) (f : ℕ → ℕ → Pixel) (x y : ℕ)
    (hx : x < w) (hy : y < h) :
    getPixel
      ⟨wd, ht, (List.range w).map fun row => (List.range h).map fun col => f row col⟩
      x y = f x y := by
  unfold getPixel
  have h1 : (((List.range w).map fun row =>
      (List.range h).map fun col => f row col).getD x []) =
      (List.range h).map fun col => f x col := by
    simp [List.getD_eq_getElem?_getD, List.getElem?_map, List.getElem?_range hx]
  rw [show (Image.mk wd ht ((List.range w).map fun row =>
      (List.range h).map fun col => f row col)).data =
      (List.range w).map fun row => (List.range h).map fun col => f row col from rfl]
  rw [h1]
  simp [List.getD_eq_getElem?_getD, List.getElem?_map, List.getElem?_range hy]

/-- Every pixel read from a channel-bounded image is channel-bounded
(out-of-range reads default to the zero pixel). -/
lemma getPixel_le (img : Image) (hb : img.bounded 255) (x y : ℕ) :
    pixelLE (getPixel img x y) 255 := by
  unfold getPixel
  rcases getD_mem_or img.data x [] with h | h
  · rw [h]
    rcases getD_mem_or ([] : List Pixel) y ((0, 0, 0) : Pixel) with h2 | h2
    · rw [h2]; exact ⟨Nat.zero_le _, Nat.zero_le _, Nat.zero_le _⟩
    · exact absurd h2 (List.not_mem_nil _)
  · rcases getD_mem_or (img.data.getD x []) y ((0, 0, 0) : Pixel) with h2 | h2
    · rw [h2]; exact ⟨Nat.zero_le _, Nat.zero_le _, Nat.zero_le _⟩
    · exact hb _ h _ h2

/-- The in-place grayscale pass writes exactly the gray triple of the
original pixel at every in-range position. -/
lemma to_grayscale_slow_getPixel (img : Image) (x y : ℕ)
    (hx : x < img.width) (hy : y < img.height) :
    getPixel (to_grayscale_slow img).1 x y =
      (grayValue (getPixel img x y), grayValue (getPixel img x y),
        grayValue (getPixel img x y)) :=
  getPixel_build img.width img.height img.width img.height
    (fun row col => (grayValue (getPixel img row col),
      grayValue (getPixel img row col), grayValue (getPixel img row col)))
    x y hx hy

/-- The in-place threshold pass writes exactly the thresholded pixel at
every in-range position. -/
lemma binary_threshold_slow_getPixel (img : Image) (t : ℤ) (x y : ℕ)
    (hx : x < img.width) (hy : y < img.height) :
    getPixel (binary_threshold_slow img t).1 x y =
      binary_threshold_pixel (getPixel img x y) t :=
  getPixel_build img.width img.height img.width img.height
    (fun row col => binary_threshold_pixel (getPixel img row col) t) x y hx hy

/-- Grayscale of a channel-bounded pixel stays within the channel range. -/
lemma grayValue_le (p : Pixel) (h : pixelLE p 255) : grayValue p ≤ 255 := by
  obtain ⟨h1, h2, h3⟩ := h
  unfold grayValue
  apply truncQ_toNat_le
  have c1 : (p.1 : ℚ) ≤ 255 := by exact_mod_cast h1
  have c2 : (p.2.1 : ℚ) ≤ 255 := by exact_mod_cast h2
  have c3 : (p.2.2 : ℚ) ≤ 255 := by exact_mod_cast h3
  have n1 : (0 : ℚ) ≤ (p.1 : ℚ) := Nat.cast_nonneg _
  have n2 : (0 : ℚ) ≤ (p.2.1 : ℚ) := Nat.cast_nonneg _
  have n3 : (0 : ℚ) ≤ (p.2.2 : ℚ) := Nat.cast_nonneg _
  push_cast
  nlinarith

/-- The thresholded pixel is always black or white, hence bounded. -/
lemma binary_threshold_pixel_le (p : Pixel) (t : ℤ) :
    pixelLE (binary_threshold_pixel p t) 255 := by
  unfold binary_threshold_pixel
  split <;> exact ⟨by norm_num, by norm_num, by norm_num⟩

/-- The fractional offset `x - int(x)` of a nonnegative source coordinate
`x = index / factor` lies in `[0, 1]`. -/
lemma div_trunc_bounds (r : ℕ) (f : ℚ) (hf : 0 < f) :
    0 ≤ (r : ℚ) / f - ((truncQ ((r : ℚ) / f)).toNat : ℚ) ∧
    (r : ℚ) / f - ((truncQ ((r : ℚ) / f)).toNat : ℚ) ≤ 1 := by
  have hx : (0 : ℚ) ≤ (r : ℚ) / f := div_nonneg (Nat.cast_nonneg r) hf.le
  rw [truncQ_of_nonneg hx]
  have hfl : (0 : ℤ) ≤ ⌊(r : ℚ) / f⌋ := Int.floor_nonneg.mpr hx
  have hcast : ((⌊(r : ℚ) / f⌋.toNat : ℕ) : ℚ) = ((⌊(r : ℚ) / f⌋ : ℤ) : ℚ) := by
    exact_mod_cast congrArg (Int.cast : ℤ → ℚ) (Int.toNat_of_nonneg hfl)
  rw [hcast]
  constructor
  · linarith [Int.floor_le ((r : ℚ) / f)]
  · linarith [Int.lt_floor_add_one ((r : ℚ) / f)]

/-- The truncated bilinear combination of four channel values in [0,255]
with fractional weights in [0,1] stays in [0,255]. -/
lemma bilinChan_le (dx dy : ℚ) (hx0 : 0 ≤ dx) (hx1 : dx ≤ 1)
    (hy0 : 0 ≤ dy) (hy1 : dy ≤ 1) (a b c d : ℕ)
    (ha : a ≤ 255) (hb : b ≤ 255) (hc : c ≤ 255) (hd : d ≤ 255) :
    bilinChan dx dy a b c d ≤ 255 := by
  unfold bilinChan
  apply truncQ_toNat_le
  have ha' : (a : ℚ) ≤ 255 := by exact_mod_cast ha
  have hb' : (b : ℚ) ≤ 255 := by exact_mod_cast hb
  have hc' : (c : ℚ) ≤ 255 := by exact_mod_cast hc
  have hd' : (d : ℚ) ≤ 255 := by exact_mod_cast hd
  have hA : (0 : ℚ) ≤ (1 - dx) * (1 - dy) :=
    mul_nonneg (by linarith) (by linarith)
  have hB : (0 : ℚ) ≤ dx * (1 - dy) := mul_nonneg hx0 (by linarith)
  have hC : (0 : ℚ) ≤ (1 - dx) * dy := mul_nonneg (by linarith) hy0
  have hD : (0 : ℚ) ≤ dx * dy := mul_nonneg hx0 hy0
  have hsum : (1 - dx) * (1 - dy) + dx * (1 - dy) + (1 - dx) * dy +
      dx * dy = 1 := by ring
  push_cast
  nlinarith [mul_le_mul_of_nonneg_left ha' hA, mul_le_mul_of_nonneg_left hb' hB,
    mul_le_mul_of_nonneg_left hc' hC, mul_le_mul_of_nonneg_left hd' hD]

/-- Every interpolated bilinear pixel of a channel-bounded image is
channel-bounded, for every positive scale factor. -/
lemma bilinearPixel_le (img : Image) (hb : img.bounded 255) (f : ℚ)
    (hf : 0 < f) (row col : ℕ) :
    pixelLE (bilinearPixel img f row col) 255 := by
  obtain ⟨hdx0, hdx1⟩ := div_trunc_bounds row f hf
  obtain ⟨hdy0, hdy1⟩ := div_trunc_bounds col f hf
  simp only [bilinearPixel, pixelLE]
  exact ⟨bilinChan_le _ _ hdx0 hdx1 hdy0 hdy1 _ _ _ _
      (getPixel_le img hb _ _).1 (getPixel_le img hb _ _).1
      (getPixel_le img hb _ _).1 (getPixel_le img hb _ _).1,
    bilinChan_le _ _ hdx0 hdx1 hdy0 hdy1 _ _ _ _
      (getPixel_le img hb _ _).2.1 (getPixel_le img hb _ _).2.1
      (getPixel_le img hb _ _).2.1 (getPixel_le img hb _ _).2.1,
    bilinChan_le _ _ hdx0 hdx1 hdy0 hdy1 _ _ _ _
      (getPixel_le img hb _ _).2.2 (getPixel_le img hb _ _).2.2
      (getPixel_le img hb _ _).2.2 (getPixel_le img hb _ _).2.2⟩

/-- A clipped-then-truncated channel value is at most 255. -/
lemma clipChan_le (v : ℚ) : clipChan v ≤ 255 := by
  unfold clipChan
  apply truncQ_toNat_le
  push_cast
  exact max_le (by norm_num) (min_le_right v 255)

/-- Every bicubic output pixel is channel-bounded after the clip. -/
lemma bicubicPixel_le (img : Image) (f : ℚ) (row col : ℕ) :
    pixelLE (bicubicPixel img f row col) 255 := by
  simp only [bicubicPixel, pixelLE]
  exact ⟨clipChan_le _, clipChan_le _, clipChan_le _⟩

/-- C1: the from-scratch `bilinear_filter` does not return the resampled
image: on the 1×1 white image with factor 2 it returns the 1×1 input
itself (line 128 returns `image`), while the internally computed
`resized_img` — which does have the claimed 2×2 dimensions and the claimed
truncated bilinear pixel values — is discarded. -/
theorem C1_bilinear_slow_returns_input_not_resized :
    bilinear_filter imgWhite1 2 false = PyOutcome.ret (PyVal.img imgWhite1) ∧
    imgWhite1.width = 1 ∧ imgWhite1.height = 1 ∧
    (bilinear_resized_img imgWhite1 2).width = 2 ∧
    (bilinear_resized_img imgWhite1 2).height = 2 ∧
    bilinear_resized_img imgWhite1 2 =
      ⟨2, 2, [[(255, 255, 255), (255, 255, 255)],
              [(255, 255, 255), (255, 255, 255)]]⟩ := by
  refine ⟨rfl, rfl, rfl, ?_, ?_, ?_⟩
  · norm_num [bilinear_resized_img, truncQ, imgWhite1]
    decide
  · norm_num [bilinear_resized_img, truncQ, imgWhite1]
    decide
  · norm_num [bilinear_resized_img, truncQ, imgWhite1]
    simp only [show Int.toNat 2 = 2 from rfl]
    norm_num [bilinearPixel, bilinChan, truncQ, getPixel, List.range_succ]
    all_goals decide

/-- C2: on a valid 1×1 image (positive dimensions), `bicubic_filter` in
fast mode raises `UnboundLocalError` (the fast branch never assigns the
local `resized_img` returned at line 197), so not every stage is
raise-free in every mode. -/
theorem C2_bicubic_fast_mode_raises :
    0 < imgWhite1.width ∧ 0 < imgWhite1.height ∧
    bicubic_filter imgWhite1 2 true = PyOutcome.exn "UnboundLocalError" :=
  ⟨by decide, by decide, rfl⟩

/-- C3 counterexample: the from-scratch grayscale value of the pure-green
pixel (0, 255, 0) is 149 — the truncation of 0.5870·255 = 149.685 — not
the 150 stated by the claim. -/
theorem C3_green_fixture_counterexample :
    grayValue (0, 255, 0) = 149 ∧ grayValue (0, 255, 0) ≠ 150 := by
  norm_num [grayValue, truncQ]
  decide

/-- C3 (amended): the from-scratch grayscale conversion maps the fixture
pixels (255,0,0) to 76 = 2989·255/10000, (0,255,0) to
149 = 5870·255/10000 — not 150 — and (0,0,255) to 29 = 1140·255/10000.
These single-product truncations are exact in the program's double
arithmetic; the spec's exact floor formula is not asserted for every
pixel, since double rounding breaks it on some inputs (see `grayValue`). -/
theorem C3_gray_fixture_values :
    grayValue (255, 0, 0) = 76 ∧ grayValue (0, 255, 0) = 149 ∧
    grayValue (0, 0, 255) = 29 ∧
    grayValue (255, 0, 0) = 2989 * 255 / 10000 ∧
    grayValue (0, 255, 0) = 5870 * 255 / 10000 ∧
    grayValue (0, 0, 255) = 1140 * 255 / 10000 := by
  refine ⟨?_, ?_, ?_, ?_, ?_, ?_⟩ <;>
    · norm_num [grayValue, truncQ]
      decide

/-- C4 counterexample: when the response has neither usable `text` nor
`parts`, `get_text_from_image` returns the literal
"Sorry I couldn Understand the Prescription", which is not the string the
claim quotes; and when `text` is unusable but `parts[0]` succeeds it
returns `None` rather than any fallback string. -/
theorem C4_fallback_counterexample :
    get_text_from_image_response ⟨none, []⟩ = some fallback_message ∧
    fallback_message ≠ claimed_fallback ∧
    get_text_from_image_response ⟨none, ["part"]⟩ = none :=
  ⟨rfl, by decide, rfl⟩

/-- C4 (amended): when `response.text` is unusable, the function returns
the fixed literal of line 247 if `response.parts[0]` also fails, and
returns no string at all (`None`) if `response.parts[0]` succeeds; it
never propagates the failure as an error. -/
theorem C4_fallback_behavior (response : LLMResponse)
    (ht : response.text = none) :
    (response.parts = [] →
      get_text_from_image_response response = some fallback_message) ∧
    (response.parts ≠ [] → get_text_from_image_response response = none) := by
  unfold get_text_from_image_response
  rw [ht]
  cases h : response.parts with
  | nil => exact ⟨fun _ => rfl, fun hne => absurd rfl hne⟩
  | cons a l => exact ⟨fun hnil => absurd hnil (List.cons_ne_nil a l), fun _ => rfl⟩

/-- Witness for `C4_fallback_behavior` at the empty response. -/
theorem C4_fallback_behavior_witness :
    (LLMResponse.mk none []).text = none ∧
    get_text_from_image_response ⟨none, []⟩ = some fallback_message :=
  ⟨rfl, (C4_fallback_behavior ⟨none, []⟩ rfl).1 rfl⟩

/-- C5: the two modes are not interchangeable strategies: on the same
valid input, fast-mode `bilinear_filter` returns `None` (no image at all,
the return value of PIL `thumbnail`), fast-mode `bicubic_filter` raises,
while the slow modes return images. -/
theorem C5_fast_mode_yields_no_image :
    bilinear_filter imgRed 2 true = PyOutcome.ret PyVal.pyNone ∧
    bicubic_filter imgRed 2 true = PyOutcome.exn "UnboundLocalError" ∧
    bilinear_filter imgRed 2 false = PyOutcome.ret (PyVal.img imgRed) ∧
    bicubic_filter imgRed 2 false =
      PyOutcome.ret (PyVal.img (bicubic_resized_img imgRed 2)) :=
  ⟨rfl, rfl, rfl, rfl⟩

/-- C6 counterexample: from-scratch `to_grayscale` mutates its input in
place: after the call on the 1×1 red image, the caller's image holds the
gray triple (76, 76, 76), not its original pixel (255, 0, 0). -/
theorem C6_grayscale_mutates_input :
    (to_grayscale_slow imgRed).2 ≠ imgRed ∧
    (to_grayscale_slow imgRed).2 = ⟨1, 1, [[(76, 76, 76)]]⟩ := by
  have h : (to_grayscale_slow imgRed).2 = ⟨1, 1, [[(76, 76, 76)]]⟩ := by
    norm_num [to_grayscale_slow, grayValue, truncQ, getPixel, imgRed,
      List.range_succ]
    decide
  refine ⟨?_, h⟩
  rw [h]
  decide

/-- C6 (amended): the from-scratch `bilinear_filter` and `bicubic_filter`
leave the input image unmodified (bicubic returning a fresh image), while
the from-scratch `to_grayscale` and `binary_threshold` mutate the input
image in place — the returned image is the caller's image after the call,
whose every in-range pixel has been overwritten with the gray triple,
respectively the thresholded pixel, of the original pixel. -/
theorem C6_mutation_profile (img : Image) (threshold : ℤ) (scale_factor : ℚ)
    (x y : ℕ) (hx : x < img.width) (hy : y < img.height) :
    (bilinear_filter_slow img scale_factor).2 = img ∧
    (bicubic_filter_slow img scale_factor).2 = img ∧
    (to_grayscale_slow img).1 = (to_grayscale_slow img).2 ∧
    getPixel (to_grayscale_slow img).2 x y =
      (grayValue (getPixel img x y), grayValue (getPixel img x y),
        grayValue (getPixel img x y)) ∧
    (binary_threshold_slow img threshold).1 =
      (binary_threshold_slow img threshold).2 ∧
    getPixel (binary_threshold_slow img threshold).2 x y =
      binary_threshold_pixel (getPixel img x y) threshold :=
  ⟨rfl, rfl, rfl, to_grayscale_slow_getPixel img x y hx hy, rfl,
    binary_threshold_slow_getPixel img threshold x y hx hy⟩

/-- Witness for `C6_mutation_profile` on the 1×1 red image. -/
theorem C6_mutation_profile_witness :
    0 < imgRed.width ∧ 0 < imgRed.height ∧
    ((bilinear_filter_slow imgRed 2).2 = imgRed ∧
     (bicubic_filter_slow imgRed 2).2 = imgRed ∧
     (to_grayscale_slow imgRed).1 = (to_grayscale_slow imgRed).2 ∧
     getPixel (to_grayscale_slow imgRed).2 0 0 =
       (grayValue (getPixel imgRed 0 0), grayValue (getPixel imgRed 0 0),
         grayValue (getPixel imgRed 0 0)) ∧
     (binary_threshold_slow imgRed 128).1 =
       (binary_threshold_slow imgRed 128).2 ∧
     getPixel (binary_threshold_slow imgRed 128).2 0 0 =
       binary_threshold_pixel (getPixel imgRed 0 0) 128) :=
  ⟨by decide, by decide,
    C6_mutation_profile imgRed 128 2 0 0 (by decide) (by decide)⟩

/-- C8: for every image, integer threshold and in-range position, the
from-scratch thresholder outputs the black pixel when the first channel
value L is below the threshold and the white pixel otherwise; in
particular at L = threshold the output is white. -/
theorem C8_threshold_rule (img : Image) (threshold : ℤ) (row col : ℕ)
    (hrow : row < img.width) (hcol : col < img.height) :
    (getPixel (binary_threshold_slow img threshold).1 row col =
      if ((getPixel img row col).1 : ℤ) < threshold then (0, 0, 0)
      else (255, 255, 255)) ∧
    (((getPixel img row col).1 : ℤ) = threshold →
      getPixel (binary_threshold_slow img threshold).1 row col =
        (255, 255, 255)) := by
  have h := binary_threshold_slow_getPixel img threshold row col hrow hcol
  constructor
  · rw [h]; rfl
  · intro he
    rw [h]
    unfold binary_threshold_pixel
    rw [if_neg (by rw [he]; exact lt_irrefl threshold)]

/-- Witness for `C8_threshold_rule`: at pixel value 128 and threshold 128
the output is white. -/
theorem C8_threshold_rule_witness :
    ((getPixel imgGray128 0 0).1 : ℤ) = 128 ∧
    getPixel (binary_threshold_slow imgGray128 128).1 0 0 =
      (255, 255, 255) :=
  ⟨by decide,
    (C8_threshold_rule imgGray128 128 0 0 (by decide) (by decide)).2
      (by decide)⟩

/-- C7: in the from-scratch bicubic resampler, for every destination pixel
and every scale factor > 0, a 4×4-neighborhood sample whose source
coordinate falls outside `[0,width) × [0,height)` is the zero (black)
pixel, and its contribution to the weighted sum is zero in all three
channels. -/
theorem C7_oob_sample_contributes_zero (img : Image) (scale_factor : ℚ)
    (_hf : 0 < scale_factor) (row col x_index y_index : ℕ)
    (_hxi : x_index < 4) (_hyi : y_index < 4)
    (hout : ¬ (0 ≤ x_val scale_factor row x_index ∧
        x_val scale_factor row x_index < (img.width : ℤ) ∧
        0 ≤ x_val scale_factor col y_index ∧
        x_val scale_factor col y_index < (img.height : ℤ))) :
    bicubicSample img (x_val scale_factor row x_index)
        (x_val scale_factor col y_index) = (0, 0, 0) ∧
    bicubicContribution img scale_factor row col x_index y_index =
      (0, 0, 0) := by
  have hs : bicubicSample img (x_val scale_factor row x_index)
      (x_val scale_factor col y_index) = (0, 0, 0) := by
    unfold bicubicSample
    exact if_neg hout
  refine ⟨hs, ?_⟩
  simp only [bicubicContribution]
  rw [hs]
  norm_num

/-- Witness for `C7_oob_sample_contributes_zero`: on the 1×1 white image
at factor 1, destination pixel (0,0), the (0,0) neighborhood sample sits
at source coordinate (-1,-1), outside the image. -/
theorem C7_oob_sample_contributes_zero_witness :
    (0 : ℚ) < 1 ∧ (0 : ℕ) < 4 ∧
    (bicubicSample imgWhite1 (x_val 1 0 0) (x_val 1 0 0) = (0, 0, 0) ∧
     bicubicContribution imgWhite1 1 0 0 0 0 = (0, 0, 0)) :=
  ⟨by norm_num, by norm_num,
    C7_oob_sample_contributes_zero imgWhite1 1 (by norm_num) 0 0 0 0
      (by norm_num) (by norm_num) (by norm_num [x_val, truncQ, imgWhite1])⟩

/-- C10: whenever accessing `response.text` fails but `response.parts[0]`
succeeds (nonempty parts), `get_text_from_image` returns `None`: the
`parts[0]` result is discarded and the function falls off its end. -/
theorem C10_parts_success_returns_none (response : LLMResponse)
    (ht : response.text = none) (hp : response.parts ≠ []) :
    get_text_from_image_response response = none := by
  unfold get_text_from_image_response
  rw [ht]
  cases h : response.parts with
  | nil => exact absurd h hp
  | cons a l => rfl

/-- Witness for `C10_parts_success_returns_none`. -/
theorem C10_parts_success_returns_none_witness :
    (LLMResponse.mk none ["part"]).text = none ∧
    (LLMResponse.mk none ["part"]).parts ≠ [] ∧
    get_text_from_image_response ⟨none, ["part"]⟩ = none :=
  ⟨rfl, by decide,
    C10_parts_success_returns_none ⟨none, ["part"]⟩ rfl (by decide)⟩

/-- C9: for every image whose channel values lie in [0,255], every
positive scale factor, every threshold and every position, the pixel
produced by each from-scratch transform — grayscale, threshold, bilinear
interpolation, clipped bicubic interpolation — has all channel values in
[0,255] (the lower bound holds because channels are naturals). -/
theorem C9_channel_range (img : Image) (hb : img.bounded 255)
    (scale_factor : ℚ) (hf : 0 < scale_factor) (threshold : ℤ)
    (x y row col : ℕ) :
    grayValue (getPixel img x y) ≤ 255 ∧
    pixelLE (binary_threshold_pixel (getPixel img x y) threshold) 255 ∧
    pixelLE (bilinearPixel img scale_factor row col) 255 ∧
    pixelLE (bicubicPixel img scale_factor row col) 255 :=
  ⟨grayValue_le _ (getPixel_le img hb x y),
    binary_threshold_pixel_le _ _,
    bilinearPixel_le img hb scale_factor hf row col,
    bicubicPixel_le img scale_factor row col⟩

/-- Witness for `C9_channel_range` on the 1×1 red image at factor 2. -/
theorem C9_channel_range_witness :
    Image.bounded imgRed 255 ∧ (0 : ℚ) < 2 ∧
    (grayValue (getPixel imgRed 0 0) ≤ 255 ∧
     pixelLE (binary_threshold_pixel (getPixel imgRed 0 0) 128) 255 ∧
     pixelLE (bilinearPixel imgRed 2 0 0) 255 ∧
     pixelLE (bicubicPixel imgRed 2 0 0) 255) :=
  ⟨by unfold Image.bounded; decide, by norm_num,
    C9_channel_range imgRed (by unfold Image.bounded; decide) 2
      (by norm_num) 128 0 0 0 0⟩

end SemProject
